import Mathlib

/-!
Verification of the encrypted-value lifecycle engine of
`src/Telegram/SourceFiles/passport/passport_form_controller.cpp`.

The C++ code is shallowly embedded: byte strings (`QByteArray`,
`bytes::vector`) become `List Nat`, the cryptographic primitives from
`passport_encryption.h` (which are outside the given sources) are an
abstract `Crypto` record whose shape follows the spec's ValueCodec and
SecretManager contracts, and each member function of `FormController`
becomes a pure Lean function from its inputs (plus the relevant slice of
controller state) to its outputs (new state plus a record of the network
requests issued and UI events fired).
-/

namespace Passport

/-- Byte strings (`QByteArray` / `bytes::vector` / `bytes::const_span`). -/
abbrev Bytes := List Nat

/-- `Value::Type` — the internal value-type enumeration. -/
inductive ValueType where
  | PersonalDetails
  | Passport
  | DriverLicense
  | IdentityCard
  | Address
  | UtilityBill
  | BankStatement
  | RentalAgreement
  | Phone
  | Email
  deriving DecidableEq, Repr

/-- The wire-level `MTPSecureValueType` constructors
(`mtpc_secureValueType...`). -/
inductive MTPSecureValueType where
  | secureValueTypePersonalDetails
  | secureValueTypePassport
  | secureValueTypeDriverLicense
  | secureValueTypeIdentityCard
  | secureValueTypeAddress
  | secureValueTypeUtilityBill
  | secureValueTypeBankStatement
  | secureValueTypeRentalAgreement
  | secureValueTypePhone
  | secureValueTypeEmail
  deriving DecidableEq, Repr

/-- `ConvertType(const MTPSecureValueType &type)` — wire type to
internal `Value::Type`. -/
def ConvertTypeFromWire : MTPSecureValueType → ValueType
  | .secureValueTypePersonalDetails => .PersonalDetails
  | .secureValueTypePassport => .Passport
  | .secureValueTypeDriverLicense => .DriverLicense
  | .secureValueTypeIdentityCard => .IdentityCard
  | .secureValueTypeAddress => .Address
  | .secureValueTypeUtilityBill => .UtilityBill
  | .secureValueTypeBankStatement => .BankStatement
  | .secureValueTypeRentalAgreement => .RentalAgreement
  | .secureValueTypePhone => .Phone
  | .secureValueTypeEmail => .Email

/-- `ConvertType(Value::Type type)` — internal `Value::Type` to wire
type. -/
def ConvertTypeToWire : ValueType → MTPSecureValueType
  | .PersonalDetails => .secureValueTypePersonalDetails
  | .Passport => .secureValueTypePassport
  | .DriverLicense => .secureValueTypeDriverLicense
  | .IdentityCard => .secureValueTypeIdentityCard
  | .Address => .secureValueTypeAddress
  | .UtilityBill => .secureValueTypeUtilityBill
  | .BankStatement => .secureValueTypeBankStatement
  | .RentalAgreement => .secureValueTypeRentalAgreement
  | .Phone => .secureValueTypePhone
  | .Email => .secureValueTypeEmail

/-- `ValueCredentialsKey(Value::Type type)` — the fixed credentials-JSON
key per value type; empty for `Phone` and `Email`. -/
def ValueCredentialsKey : ValueType → String
  | .PersonalDetails => "personal_details"
  | .Passport => "passport"
  | .DriverLicense => "driver_license"
  | .IdentityCard => "identity_card"
  | .Address => "address"
  | .UtilityBill => "utility_bill"
  | .BankStatement => "bank_statement"
  | .RentalAgreement => "rental_agreement"
  | .Phone => ""
  | .Email => ""

/-- `File` — one encrypted binary blob (document scan or selfie).
`image` is abstracted to the byte string it was decoded from (empty
meaning "null image"). -/
structure File where
  id : Nat := 0
  accessHash : Nat := 0
  size : Int := 0
  date : Int := 0
  dcId : Nat := 0
  hash : Bytes := []
  secret : Bytes := []
  encryptedSecret : Bytes := []
  downloadOffset : Int := 0
  image : Bytes := []
  deriving DecidableEq, Repr

/-- `UploadScanData` — ciphertext, checksum and progress of an in-flight
upload. -/
structure UploadScanData where
  fileId : Nat := 0
  partsCount : Int := 0
  md5checksum : Bytes := []
  hash : Bytes := []
  bytes : Bytes := []
  offset : Int := 0
  fullId : Nat := 0
  deriving DecidableEq, Repr

/-- `EditFile` — a staged, not-yet-committed mutation of a `File`.  The
non-owning back-reference `value` and the shared-pointer liveness `guard`
are not needed by the properties proved here and are left out. -/
structure EditFile where
  fields : File := {}
  uploadData : Option UploadScanData := none
  deleted : Bool := false
  deriving DecidableEq, Repr

/-- `Verification` — transient phone/email ownership-proof state.  The
`call` scheduling object is abstracted to its presence. -/
structure Verification where
  requestId : Int := 0
  codeLength : Int := 0
  phoneCodeHash : String := ""
  hasCall : Bool := false
  error : String := ""
  deriving DecidableEq, Repr

/-- `ValueMap` — `std::map<QString, QString>`, embedded as an
association list (the C++ map has unique keys). -/
structure ValueMap where
  fields : List (String × String) := []
  deriving DecidableEq, Repr

/-- `Value::Data` — original encrypted bytes, hashes, secrets and the
decrypted field maps (committed and in-edit). -/
structure ValueData where
  original : Bytes := []
  hash : Bytes := []
  secret : Bytes := []
  encryptedSecret : Bytes := []
  parsed : ValueMap := {}
  hashInEdit : Bytes := []
  encryptedSecretInEdit : Bytes := []
  parsedInEdit : ValueMap := {}
  deriving DecidableEq, Repr

/-- `Value` — one semantic document/field-group of the form. -/
structure Value where
  type : ValueType
  submitHash : Bytes := []
  data : ValueData := {}
  scans : List File := []
  selfie : Option File := none
  scansInEdit : List EditFile := []
  selfieInEdit : Option EditFile := none
  verification : Verification := {}
  editScreens : Int := 0
  saveRequestId : Int := 0
  error : String := ""
  deriving DecidableEq, Repr

/-- `Value::Value(Type type)` — a fresh (unset) `Value` of the given
type: every other member default-initialized. -/
def Value.init (type : ValueType) : Value := { type := type }

/-- `FormController::resetValue` — `value = Value(value.type)`. -/
def resetValue (value : Value) : Value := Value.init value.type

/-- Modelled from the spec: the cryptographic primitives of
`passport_encryption.h` are not among the given sources.  Following the
spec's ValueCodec/SecretManager contracts, each decryption primitive
returns the plaintext bytes or the empty byte string on failure, and
`DeserializeData` parses decrypted field bytes into a field map. -/
structure Crypto where
  DecryptSecureSecret : Bytes → Bytes → Bytes → Bytes
  DecryptValueSecret : Bytes → Bytes → Bytes → Bytes
  DecryptData : Bytes → Bytes → Bytes → Bytes
  DeserializeData : Bytes → List (String × String)
  CountSecureSecretHash : Bytes → Int
  Sha256 : Bytes → Bytes
  toBase64 : Bytes → String

/-- The `validateFileSecret` lambda inside
`FormController::validateValueSecrets`: decrypt a file's wrapped secret
under the master secret keyed by the file's hash; empty result is
failure. -/
def validateFileSecret (c : Crypto) (masterSecret : Bytes) (file : File) :
    Option File :=
  let secret := c.DecryptValueSecret file.encryptedSecret masterSecret file.hash
  if secret = [] then none
  else some { file with secret := secret }

/-- The scan loop of `FormController::validateValueSecrets`: every scan's
secret must decrypt. -/
def validateFileSecrets (c : Crypto) (masterSecret : Bytes) :
    List File → Option (List File)
  | [] => some []
  | file :: rest =>
    match validateFileSecret c masterSecret file with
    | none => none
    | some file' =>
      match validateFileSecrets c masterSecret rest with
      | none => none
      | some rest' => some (file' :: rest')

/-- The scan-and-selfie half of `FormController::validateValueSecrets`:
every scan's secret and (when present) the selfie's secret must
decrypt; `Option.bind` models the early `return false`. -/
def validateValueSecretsFiles (c : Crypto) (masterSecret : Bytes)
    (v1 : Value) : Option Value :=
  (validateFileSecrets c masterSecret v1.scans).bind (fun scans' =>
    match v1.selfie with
    | none => some { v1 with scans := scans' }
    | some selfie =>
      (validateFileSecret c masterSecret selfie).map
        (fun selfie' => { v1 with scans := scans', selfie := some selfie' }))

/-- `FormController::validateValueSecrets` — decrypt the per-value data
secret (when `data.original` is non-empty) and every scan/selfie secret;
`none` models the `false` return (the C++ code mutates in place, but its
only caller resets the value on failure, so the partial mutations of the
failure path are unobservable). -/
def validateValueSecrets (c : Crypto) (masterSecret : Bytes) (value : Value) :
    Option Value :=
  (if value.data.original = [] then some value
   else if c.DecryptValueSecret value.data.encryptedSecret masterSecret
       value.data.hash = [] then none
   else some { value with data := { value.data with
       secret := c.DecryptValueSecret value.data.encryptedSecret masterSecret
         value.data.hash } }).bind
    (validateValueSecretsFiles c masterSecret)

/-- `FormController::decryptValue` — on secret-validation failure the
value is reset; otherwise, when stored encrypted data exists, the parsed
field map is replaced wholesale by the deserialization of the decrypted
payload. -/
def decryptValue (c : Crypto) (masterSecret : Bytes) (value : Value) : Value :=
  match validateValueSecrets c masterSecret value with
  | none => resetValue value
  | some v1 =>
    if v1.data.original = [] then v1
    else
      { v1 with data := { v1.data with parsed := ⟨c.DeserializeData
          (c.DecryptData v1.data.original v1.data.hash v1.data.secret)⟩ } }

/-- The slice of `FormController` state that secret
derivation/recovery reads and writes: `_secret`, `_secretId` and the
form's values (`_form.values`, embedded as a list). -/
structure FormSecretState where
  secret : Bytes := []
  secretId : Int := 0
  values : List Value := []
  deriving Repr

/-- Result of `FormController::validateSecureSecret`:
the new state, whether `generateSecret(password)` was invoked, and
whether `_secretReady` was fired. -/
structure ValidateSecureSecretResult where
  state : FormSecretState
  generateSecretCalled : Bool
  secretReadyFired : Bool
  deriving Repr

/-- `FormController::decryptValues` — decrypt every value of the form
with the (non-empty) master secret. -/
def decryptValues (c : Crypto) (st : FormSecretState) : FormSecretState :=
  { st with values := st.values.map (decryptValue c st.secret) }

/-- `FormController::validateSecureSecret` — when a recovery salt and a
wrapped secret are both supplied, try to unwrap; on failure zero the
secret id and reset every value holding stored encrypted data; on
success set the secret id and decrypt the values.  If no secret
resulted, `generateSecret` runs; `_secretReady` always fires. -/
def validateSecureSecret (c : Crypto) (st : FormSecretState)
    (salt encryptedSecret password : Bytes) : ValidateSecureSecretResult :=
  let st1 :=
    if salt ≠ [] ∧ encryptedSecret ≠ [] then
      let secret := c.DecryptSecureSecret salt encryptedSecret password
      if secret = [] then
        { st with
          secret := secret
          secretId := 0
          values := st.values.map (fun value =>
            if value.data.original = [] then value else resetValue value) }
      else
        decryptValues c { st with
          secret := secret
          secretId := c.CountSecureSecretHash secret }
    else st
  { state := st1
    generateSecretCalled := st1.secret = []
    secretReadyFired := true }

/-- `QChar::isSpace` for the characters relevant to `QString::trimmed`:
space and the ASCII control whitespace range. -/
def isQtSpace (ch : Char) : Bool :=
  ch = ' ' || (9 ≤ ch.toNat && ch.toNat ≤ 13)

/-- `QString::trimmed` — strip leading and trailing whitespace. -/
def qtrimmed (s : String) : String :=
  ⟨((s.toList.dropWhile isQtSpace).reverse.dropWhile isQtSpace).reverse⟩

/-- The fixed "wrong code" message key `lng_signin_wrong_code`. -/
def lng_signin_wrong_code : String := "lng_signin_wrong_code"

/-- Outcome of `FormController::verify`: nothing (an outstanding request
already exists), or the value updated with an error and no request
issued, or a verification request issued with the prepared code. -/
inductive VerifyOutcome where
  | noop
  | errorOnly
  | requestSent (preparedCode : String)
  deriving DecidableEq, Repr

/-- `FormController::verify` — trim the code; clear the error (first
`verificationError(value, QString())`); reject a length mismatch against
a positive `codeLength` or an empty trimmed code with the fixed wrong
code message and no request; otherwise issue the
`VerifyPhone`/`VerifyEmail` request (`newRequestId` stands for the
request id the RPC layer assigns).  Requires
`value.verification.codeLength ≠ 0` (an `Assert` in the source). -/
def verify (newRequestId : Int) (value : Value) (code : String) :
    Value × VerifyOutcome :=
  if value.verification.requestId ≠ 0 then (value, .noop)
  else
    let prepared := qtrimmed code
    let v1 := { value with verification := { value.verification with error := "" } }
    if 0 < v1.verification.codeLength
        ∧ v1.verification.codeLength ≠ (prepared.length : Int) then
      ({ v1 with verification :=
          { v1.verification with error := lng_signin_wrong_code } }, .errorOnly)
    else if prepared = "" then
      ({ v1 with verification :=
          { v1.verification with error := lng_signin_wrong_code } }, .errorOnly)
    else
      ({ v1 with verification :=
          { v1.verification with requestId := newRequestId } },
        .requestSent prepared)

/-- `kDocumentScansLimit` — the per-value scan cap. -/
def kDocumentScansLimit : Nat := 20

/-- `FormController::canAddScan` — the count of non-deleted staged scans
is below the cap. -/
def canAddScan (value : Value) : Bool :=
  (value.scansInEdit.filter (fun scan => !scan.deleted)).length
    < kDocumentScansLimit

/-- The synchronous part of `FormController::uploadScan`: over the cap a
toast is shown and nothing changes; otherwise a fresh `EditFile` is
staged at the back of `scansInEdit` (its asynchronous encryption and
upload are outside these properties).  The returned flag is whether the
limit-reached toast was shown. -/
def uploadScan (value : Value) : Value × Bool :=
  if !canAddScan value then (value, true)
  else ({ value with scansInEdit := value.scansInEdit ++ [{}] }, false)

/-- `FormController::scanDeleteRestore` — restoring a deleted scan
re-checks the cap and is rejected (toast, no mutation) when over it;
otherwise the scan's `deleted` flag is set.  The index must be in range
(an `Expects` in the source); out of range is embedded as a no-op. -/
def scanDeleteRestore (value : Value) (scanIndex : Nat) (deleted : Bool) :
    Value × Bool :=
  match value.scansInEdit.get? scanIndex with
  | none => (value, false)
  | some scan =>
    if scan.deleted ∧ ¬deleted ∧ ¬canAddScan value then (value, true)
    else
      ({ value with scansInEdit :=
          value.scansInEdit.set scanIndex { scan with deleted := deleted } },
        false)

/-- `FormController::savingValue` — a save request or a verification is
outstanding for this value. -/
def savingValue (value : Value) : Bool :=
  value.saveRequestId != 0
  || value.verification.requestId != 0
  || value.verification.codeLength != 0

/-- `FormController::isEncryptedValue` — every type except `Phone` and
`Email`. -/
def isEncryptedValue (type : ValueType) : Bool :=
  type != ValueType.Phone && type != ValueType.Email

/-- `FormController::editFileChanged` — a staged file with fresh upload
data counts as changed unless deleted; one without counts as changed
exactly when deleted. -/
def editFileChanged (file : EditFile) : Bool :=
  match file.uploadData with
  | some _ => !file.deleted
  | none => file.deleted

/-- The field-map loop of `FormController::editValueChanged`: walk the
new fields against a shrinking copy of the committed fields; a differing
value, or a new non-empty value, is a change; leftover committed keys at
the end are a change. -/
def fieldsChanged :
    List (String × String) → List (String × String) → Bool
  | existing, [] => !existing.isEmpty
  | existing, (key, val) :: rest =>
    match existing.lookup key with
    | some v0 =>
      if v0 ≠ val then true
      else fieldsChanged (existing.eraseP (fun p => p.1 == key)) rest
    | none => if val ≠ "" then true else fieldsChanged existing rest

/-- `FormController::editValueChanged` — any changed staged scan or
selfie, or any field-by-field difference against the committed state. -/
def editValueChanged (value : Value) (data : ValueMap) : Bool :=
  value.scansInEdit.any editFileChanged
  || (match value.selfieInEdit with
      | some file => editFileChanged file
      | none => false)
  || fieldsChanged value.data.parsed.fields data.fields

/-- Outcome of `FormController::saveValueEdit`: blocked (a save or
submission in flight), finished with no request (no change), or routed
to the encrypted/plain-text save path. -/
inductive SaveOutcome where
  | blocked
  | finishedNoRequest
  | encryptedSave
  | plainSave
  deriving DecidableEq, Repr

/-- `FormController::saveValueEdit` — a no-op while `savingValue` or a
submission is in flight; with no change it clears the edit-scoped copies
and the error and fires `_valueSaveFinished` without any request (the
value shown is the state after the queued `crl::on_main` callback ran:
`saveRequestId` goes `-1` then back to `0`); otherwise the new fields
are staged and the save is routed by value type. -/
def saveValueEdit (submitRequestId : Int) (value : Value) (data : ValueMap) :
    Value × SaveOutcome :=
  if savingValue value || submitRequestId != 0 then (value, .blocked)
  else if !editValueChanged value data then
    ({ value with
        scansInEdit := []
        selfieInEdit := none
        data := { value.data with
          encryptedSecretInEdit := []
          hashInEdit := []
          parsedInEdit := {} }
        saveRequestId := 0
        error := "" }, .finishedNoRequest)
  else
    let value1 := { value with data := { value.data with parsedInEdit := data } }
    if isEncryptedValue value1.type then (value1, .encryptedSave)
    else (value1, .plainSave)

/-- The slice of `FormController` state driving the queueing of
encrypted saves behind secret generation: `_secret` and
`_secretCallbacks`.  A queued callback `[=] { saveEncryptedValue(value); }`
is represented by the value reference it captures. -/
structure SecretQueueState where
  secret : Bytes := []
  secretCallbacks : List Nat := []
  deriving DecidableEq, Repr

/-- The entry of `FormController::saveEncryptedValue`: with no master
secret the call is queued onto `_secretCallbacks`; with a secret present
the save is performed (appended to `performed`, standing for the body
that builds and sends the save request). -/
def saveEncryptedValue (st : SecretQueueState) (performed : List Nat)
    (valueRef : Nat) : SecretQueueState × List Nat :=
  if st.secret = [] then
    ({ st with secretCallbacks := st.secretCallbacks ++ [valueRef] }, performed)
  else (st, performed ++ [valueRef])

/-- The `done` handler of `FormController::generateSecret`: install the
generated secret, then run every callback of
`base::take(_secretCallbacks)` in order — each re-enters
`saveEncryptedValue` on its captured value. -/
def generateSecretDone (st : SecretQueueState) (newSecret : Bytes) :
    SecretQueueState × List Nat :=
  let callbacks := st.secretCallbacks
  let st1 := { st with secret := newSecret, secretCallbacks := [] }
  callbacks.foldl
    (fun acc valueRef => saveEncryptedValue acc.1 acc.2 valueRef) (st1, [])

/-- `FormController::clearValueEdit` — drop the edit-scoped copies
unless a save is in flight. -/
def clearValueEdit (value : Value) : Value :=
  if savingValue value then value
  else
    { value with
        scansInEdit := []
        selfieInEdit := none
        data := { value.data with
          encryptedSecretInEdit := []
          hashInEdit := []
          parsedInEdit := {} } }

/-- `FormController::valueEditFailed` — with no edit screen open the
edit state is dropped.  Requires `¬savingValue value` (an `Expects` in
the source). -/
def valueEditFailed (value : Value) : Value :=
  if value.editScreens = 0 then clearValueEdit value else value

/-- Result of `FormController::valueSaveFailed`: the value after
`valueEditFailed`, the `InformBox` text shown, and the
`_valueSaveFinished` firing. -/
structure ValueSaveFailedResult where
  value : Value
  errorShown : String
  saveFinishedFired : Bool
  deriving DecidableEq, Repr

/-- `FormController::valueSaveFailed` — surface the error in an
`InformBox` and fire `_valueSaveFinished` so the panel reopens the value
for editing. -/
def valueSaveFailed (value : Value) (errorType : String) :
    ValueSaveFailedResult :=
  { value := valueEditFailed value
    errorShown := "Error saving value:\n" ++ errorType
    saveFinishedFired := true }

/-- The slice of `FormController` state that `submitPassword` touches:
`_password.salt` and `_passwordCheckRequestId`. -/
structure PasswordState where
  salt : Bytes := []
  passwordCheckRequestId : Int := 0
  deriving DecidableEq, Repr

/-- `QString::toUtf8`, abstracted to code points (only emptiness and
injectivity on the inputs used matter here). -/
def utf8Bytes (s : String) : Bytes := s.toList.map Char.toNat

/-- `FormController::passwordHashForAuth` —
`Sha256(salt ++ password ++ salt)`. -/
def passwordHashForAuth (c : Crypto) (salt password : Bytes) : Bytes :=
  c.Sha256 (salt ++ password ++ salt)

/-- Result of `FormController::submitPassword`: the new state, the
message fired on `_passwordError` (if any), and the hash carried by the
issued `GetPasswordSettings` request (if one was issued). -/
structure SubmitPasswordResult where
  state : PasswordState
  passwordErrorFired : Option String
  requestHash : Option Bytes
  deriving DecidableEq, Repr

/-- `FormController::submitPassword` — an outstanding check makes it a
no-op; an empty password fires an empty `_passwordError` but does NOT
return, so the check request is still issued, hashed over the empty
password.  Requires a non-empty salt (an `Expects` in the source);
`newRequestId` stands for the id the RPC layer assigns. -/
def submitPassword (c : Crypto) (newRequestId : Int) (st : PasswordState)
    (password : String) : SubmitPasswordResult :=
  if st.passwordCheckRequestId ≠ 0 then
    { state := st, passwordErrorFired := none, requestHash := none }
  else
    { state := { st with passwordCheckRequestId := newRequestId }
      passwordErrorFired := if password = "" then some "" else none
      requestHash := some (passwordHashForAuth c st.salt (utf8Bytes password)) }

/-- `QJsonValue`, restricted to the constructors this code produces:
strings, objects and arrays. -/
inductive JSON where
  | str (s : String)
  | obj (members : List (String × JSON))
  | arr (elements : List JSON)
  deriving Repr

mutual

/-- All string leaves of a JSON value. -/
def jsonStrings : JSON → List String
  | .str s => [s]
  | .obj members => jsonStringsOfMembers members
  | .arr elements => jsonStringsOfList elements

/-- All string leaves below a member list. -/
def jsonStringsOfMembers : List (String × JSON) → List String
  | [] => []
  | (_, j) :: rest => jsonStrings j ++ jsonStringsOfMembers rest

/-- All string leaves below an element list. -/
def jsonStringsOfList : List JSON → List String
  | [] => []
  | j :: rest => jsonStrings j ++ jsonStringsOfList rest

end

/-- `GetJSONFromMap` — each byte string is rendered as its base64; the
C++ `std::map` iterates in key order, and the call sites below pass
their pairs in that order.  `b64` abstracts `QByteArray::toBase64`. -/
def GetJSONFromMap (b64 : Bytes → String) (m : List (String × Bytes)) : JSON :=
  .obj (m.map (fun p => (p.1, .str (b64 p.2))))

/-- `GetJSONFromFile` — only the file's content hash and per-file
secret. -/
def GetJSONFromFile (b64 : Bytes → String) (file : File) : JSON :=
  GetJSONFromMap b64 [("file_hash", file.hash), ("secret", file.secret)]

/-- Modelled from the spec: `ComputeScopes` lives in the panel code,
which is not among the given sources.  Per the spec's submission
assembly, it groups the form's values into scopes: one fields value plus
the document values of that scope. -/
structure Scope where
  fields : Value
  documents : List Value

/-- Modelled from the spec: `ComputeScopeRowReadyString` lives in the
panel code, which is not among the given sources.  Per the spec, the
ready indicator is non-empty exactly when the value carries its required
content (field data or document scans); it is computed from content, so
an in-flight save request id does not enter it. -/
def ComputeScopeRowReadyString (scope : Scope) : String :=
  if scope.fields.data.parsed.fields ≠ []
      ∨ scope.documents.any (fun doc => !doc.scans.isEmpty) then "ready"
  else ""

/-- The `addValueToJSON` lambda of `FormController::prepareFinalData`:
an object holding at most `data` (data hash + secret), `files` (hash +
secret per scan) and `selfie` (hash + secret, when the form requires a
selfie). -/
def addValueToJSON (b64 : Bytes → String) (identitySelfieRequired : Bool)
    (value : Value) : JSON :=
  .obj (
    (if value.data.parsed.fields ≠ [] then
      [("data", GetJSONFromMap b64
        [("data_hash", value.data.hash), ("secret", value.data.secret)])]
    else [])
    ++ (if value.scans ≠ [] then
      [("files", .arr (value.scans.map (GetJSONFromFile b64)))]
    else [])
    ++ (match value.selfie with
      | some selfie =>
        if identitySelfieRequired then [("selfie", GetJSONFromFile b64 selfie)]
        else []
      | none => []))

/-- The `addValue` lambda of `FormController::prepareFinalData`: the
hash-list entry `(type, submitHash)`, plus — only when the credentials
key of the type is non-empty — the credentials-object entry. -/
def addValue (b64 : Bytes → String) (identitySelfieRequired : Bool)
    (value : Value) : (ValueType × Bytes) × List (String × JSON) :=
  ((value.type, value.submitHash),
    let key := ValueCredentialsKey value.type
    if key ≠ "" then [(key, addValueToJSON b64 identitySelfieRequired value)]
    else [])

/-- What the scope loop of `prepareFinalData` accumulated: hash list,
credentials entries, whether any scope was not ready, and the values
whose `error` member was written. -/
structure ProcessScopesResult where
  hashes : List (ValueType × Bytes)
  secureData : List (String × JSON)
  hasErrors : Bool
  erroredTypes : List ValueType
  deriving Repr

/-- The scope loop of `FormController::prepareFinalData`: a scope with
an empty ready string marks errors (clearing that value's error text);
otherwise its fields value is added, followed by the first document
value holding scans. -/
def processScopes (b64 : Bytes → String) (identitySelfieRequired : Bool)
    (ready : Scope → String) : List Scope → ProcessScopesResult
  | [] => ⟨[], [], false, []⟩
  | scope :: rest =>
    let r := processScopes b64 identitySelfieRequired ready rest
    if ready scope = "" then
      ⟨r.hashes, r.secureData, true, scope.fields.type :: r.erroredTypes⟩
    else
      let fieldsAdded := addValue b64 identitySelfieRequired scope.fields
      let docAdded :=
        match scope.documents.find? (fun doc => !doc.scans.isEmpty) with
        | some doc => [addValue b64 identitySelfieRequired doc]
        | none => []
      ⟨fieldsAdded.1 :: (docAdded.map (·.1) ++ r.hashes),
        fieldsAdded.2 ++ (docAdded.flatMap (·.2) ++ r.secureData),
        r.hasErrors,
        r.erroredTypes⟩

/-- `FormController::FinalData` — the submit-hash list and the
credentials JSON document (`none` embeds the empty `{}` returned on
errors); `erroredTypes` records the per-value error writes. -/
structure FinalData where
  hashes : List (ValueType × Bytes)
  credentials : Option JSON
  erroredTypes : List ValueType
  deriving Repr

/-- `FormController::prepareFinalData` — on any non-ready scope the
whole submission is aborted with empty data; otherwise the credentials
document is `{"secure_data": ..., "payload": ...}`. -/
def prepareFinalData (b64 : Bytes → String) (identitySelfieRequired : Bool)
    (ready : Scope → String) (payload : String) (scopes : List Scope) :
    FinalData :=
  let r := processScopes b64 identitySelfieRequired ready scopes
  if r.hasErrors then ⟨[], none, r.erroredTypes⟩
  else
    ⟨r.hashes,
      some (.obj [("secure_data", .obj r.secureData), ("payload", .str payload)]),
      r.erroredTypes⟩

/-- `FormController::submit` — a submission in flight returns `true`
without a new request; empty prepared hashes return `false` with no
request; otherwise the `AcceptAuthorization` request is sent (the
encryption of the credentials under a one-time secret and the requester
public key does not affect whether the request is issued). -/
def submit (b64 : Bytes → String) (identitySelfieRequired : Bool)
    (ready : Scope → String) (payload : String) (submitRequestId : Int)
    (scopes : List Scope) : Bool × Bool :=
  if submitRequestId ≠ 0 then (true, false)
  else
    let prepared := prepareFinalData b64 identitySelfieRequired ready
      payload scopes
    if prepared.hashes.isEmpty then (false, false)
    else (true, true)

/-- The values a scope exposes (fields first, then documents). -/
def scopeValues (scope : Scope) : List Value :=
  scope.fields :: scope.documents

/-- All values of a scope list. -/
def allScopeValues (scopes : List Scope) : List Value :=
  scopes.flatMap scopeValues

/-- The byte strings a value may legitimately reveal inside the
credentials document, rendered through `b64`: its data hash and data
secret, each scan's hash and secret, and — when the form requires a
selfie — the selfie's hash and secret. -/
def credentialStrings (b64 : Bytes → String) (identitySelfieRequired : Bool)
    (value : Value) : List String :=
  [b64 value.data.hash, b64 value.data.secret]
  ++ value.scans.flatMap (fun f => [b64 f.hash, b64 f.secret])
  ++ (match value.selfie with
    | some f => if identitySelfieRequired then [b64 f.hash, b64 f.secret] else []
    | none => [])

/-- The values accepted by the scope loop, in order: for each ready
scope, its fields value then the first document value holding scans. -/
def collectAccepted (ready : Scope → String) : List Scope → List Value
  | [] => []
  | scope :: rest =>
    if ready scope = "" then collectAccepted ready rest
    else
      scope.fields ::
        ((match scope.documents.find? (fun doc => !doc.scans.isEmpty) with
          | some doc => [doc]
          | none => []) ++ collectAccepted ready rest)

/-! ## Claims -/

/-- C9: the two type-conversion functions between the wire-level
secure-value type and the internal `Value::Type` enum are mutually
inverse: converting an internal type to the wire type and back is the
identity, and converting a supported wire type to the internal type and
back is the identity. -/
theorem convertType_roundTrip :
    (∀ t : ValueType, ConvertTypeFromWire (ConvertTypeToWire t) = t)
    ∧ (∀ w : MTPSecureValueType, ConvertTypeToWire (ConvertTypeFromWire w) = w) :=
  ⟨fun t => by cases t <;> rfl, fun w => by cases w <;> rfl⟩

/-- C4: a verification attempt on a value with no outstanding request
trims the code; an empty trimmed code, or a positive expected
`codeLength` differing from the trimmed length, transitions directly to
the error state carrying the fixed wrong-code message, with no request
sent to the remote authority. -/
theorem verify_rejects_bad_code (newRequestId : Int) (value : Value)
    (code : String)
    (hreq : value.verification.requestId = 0)
    (hbad : qtrimmed code = ""
      ∨ (0 < value.verification.codeLength
          ∧ value.verification.codeLength ≠ ((qtrimmed code).length : Int))) :
    verify newRequestId value code =
      ({ value with verification :=
          { value.verification with error := lng_signin_wrong_code } },
        .errorOnly) := by
  rw [verify, if_neg (by simp [hreq])]
  rcases hbad with hempty | ⟨hpos, hne⟩
  · rcases eq_or_ne value.verification.codeLength ((qtrimmed code).length : Int)
      with heq | hne
    · rw [if_neg (by simp [heq]), if_pos hempty]
    · by_cases hpos : 0 < value.verification.codeLength
      · rw [if_pos ⟨hpos, hne⟩]
      · rw [if_neg (by simp [hpos]), if_pos hempty]
  · rw [if_pos ⟨hpos, hne⟩]

/-- Concrete input for the C4 witness: a phone value expecting a
five-digit code, given a code that trims to two digits. -/
def c4value : Value := { type := .Phone, verification := { codeLength := 5 } }

/-- Witness for C4 at `c4value` and the code `" 12 "`. -/
theorem verify_rejects_bad_code_witness :
    (c4value.verification.requestId = 0
      ∧ (qtrimmed " 12 " = ""
        ∨ (0 < c4value.verification.codeLength
            ∧ c4value.verification.codeLength ≠ ((qtrimmed " 12 ").length : Int))))
    ∧ verify 7 c4value " 12 " =
        ({ c4value with verification :=
            { c4value.verification with error := lng_signin_wrong_code } },
          .errorOnly) :=
  ⟨⟨rfl, Or.inr (by decide)⟩,
    verify_rejects_bad_code 7 c4value " 12 " rfl (Or.inr (by decide))⟩

/-- C5: once the count of non-deleted staged scans has reached the cap
of 20, staging a new scan is rejected before any mutation (the value is
unchanged, only the limit toast is shown), and restoring a previously
deleted scan is likewise rejected without changing its deleted flag. -/
theorem scans_cap_enforced (value : Value)
    (hfull : kDocumentScansLimit
      ≤ (value.scansInEdit.filter (fun scan => !scan.deleted)).length) :
    uploadScan value = (value, true)
    ∧ ∀ scanIndex scan, value.scansInEdit[scanIndex]? = some scan →
        scan.deleted = true →
        scanDeleteRestore value scanIndex false = (value, true) := by
  have hc : canAddScan value = false := by
    simp only [canAddScan, decide_eq_false_iff_not, not_lt]
    exact hfull
  refine ⟨by simp [uploadScan, hc], fun scanIndex scan hget hdel => ?_⟩
  simp [scanDeleteRestore, hget, hdel, hc]

/-- Concrete input for the C5 witness: twenty non-deleted staged scans
and one deleted staged scan at index 20. -/
def c5value : Value :=
  { type := .Passport
    scansInEdit := List.replicate 20 {} ++ [{ deleted := true }] }

/-- Witness for C5 at `c5value`. -/
theorem scans_cap_enforced_witness :
    uploadScan c5value = (c5value, true)
    ∧ scanDeleteRestore c5value 20 false = (c5value, true) :=
  ⟨(scans_cap_enforced c5value (by decide)).1,
    (scans_cap_enforced c5value (by decide)).2 20 { deleted := true }
      (by decide) rfl⟩

/-- C3: when a recovery salt and a wrapped master secret are both
supplied and unwrapping fails, the secret is cleared with its identifier
zeroed, every value holding stored encrypted data (non-empty
`data.original`) is reset to the unset state, and a fresh secret
generation is initiated. -/
theorem validateSecureSecret_unwrapFailure (c : Crypto)
    (st : FormSecretState) (salt encryptedSecret password : Bytes)
    (hsalt : salt ≠ []) (henc : encryptedSecret ≠ [])
    (hfail : c.DecryptSecureSecret salt encryptedSecret password = []) :
    validateSecureSecret c st salt encryptedSecret password =
      { state := { st with
          secret := []
          secretId := 0
          values := st.values.map (fun value =>
            if value.data.original = [] then value else resetValue value) }
        generateSecretCalled := true
        secretReadyFired := true } := by
  simp [validateSecureSecret, hsalt, henc, hfail]

/-- Crypto instance for the C3 witness: every unwrap fails. -/
def c3crypto : Crypto :=
  { DecryptSecureSecret := fun _ _ _ => []
    DecryptValueSecret := fun _ _ _ => []
    DecryptData := fun _ _ _ => []
    DeserializeData := fun _ => []
    CountSecureSecretHash := fun _ => 0
    Sha256 := fun _ => []
    toBase64 := fun _ => "" }

/-- Form state for the C3 witness: one value with stored encrypted
data, one without. -/
def c3state : FormSecretState :=
  { secret := [8]
    secretId := 4
    values := [{ type := .Passport, data := { original := [1] } },
               { type := .Phone }] }

/-- Witness for C3 at `c3state` with failing unwrap. -/
theorem validateSecureSecret_unwrapFailure_witness :
    ([5] ≠ ([] : Bytes) ∧ [6] ≠ ([] : Bytes)
      ∧ c3crypto.DecryptSecureSecret [5] [6] [7] = [])
    ∧ validateSecureSecret c3crypto c3state [5] [6] [7] =
      { state := { c3state with
          secret := []
          secretId := 0
          values := c3state.values.map (fun value =>
            if value.data.original = [] then value else resetValue value) }
        generateSecretCalled := true
        secretReadyFired := true } :=
  ⟨⟨by decide, by decide, rfl⟩,
    validateSecureSecret_unwrapFailure c3crypto c3state [5] [6] [7]
      (by decide) (by decide) rfl⟩

/-- C6: with no save in flight and no submission in flight, saving an
edit whose field-by-field and file-by-file diff against the committed
state is empty fires the save-finished completion without issuing any
network request, and clears the staged scans, the staged selfie, the
in-edit hash/secret/fields and the value's error. -/
theorem saveValueEdit_noChange (submitRequestId : Int) (value : Value)
    (data : ValueMap)
    (hsaving : savingValue value = false)
    (hsubmit : submitRequestId = 0)
    (hchanged : editValueChanged value data = false) :
    saveValueEdit submitRequestId value data =
      ({ value with
          scansInEdit := []
          selfieInEdit := none
          data := { value.data with
            encryptedSecretInEdit := []
            hashInEdit := []
            parsedInEdit := {} }
          saveRequestId := 0
          error := "" }, .finishedNoRequest) := by
  simp [saveValueEdit, hsaving, hsubmit, hchanged]

/-- Concrete input for the C6 witness: an address value with one
committed (unchanged) staged scan copy and a field left as committed. -/
def c6value : Value :=
  { type := .Address
    data := { parsed := ⟨[("street", "x")]⟩, parsedInEdit := ⟨[("street", "x")]⟩ }
    scansInEdit := [{}]
    error := "old" }

/-- Witness for C6 at `c6value` re-submitting the committed fields. -/
theorem saveValueEdit_noChange_witness :
    (savingValue c6value = false ∧ (0 : Int) = 0
      ∧ editValueChanged c6value ⟨[("street", "x")]⟩ = false)
    ∧ saveValueEdit 0 c6value ⟨[("street", "x")]⟩ =
      ({ c6value with
          scansInEdit := []
          selfieInEdit := none
          data := { c6value.data with
            encryptedSecretInEdit := []
            hashInEdit := []
            parsedInEdit := {} }
          saveRequestId := 0
          error := "" }, .finishedNoRequest) :=
  ⟨⟨by decide, rfl, by decide⟩,
    saveValueEdit_noChange 0 c6value ⟨[("street", "x")]⟩ (by decide) rfl
      (by decide)⟩

/-- Replaying the taken callback queue once the secret is present
performs each queued save in order. -/
theorem replay_foldl (newSecret : Bytes) (hnew : newSecret ≠ []) :
    ∀ (callbacks performed : List Nat),
      callbacks.foldl
        (fun acc valueRef => saveEncryptedValue acc.1 acc.2 valueRef)
        (⟨newSecret, []⟩, performed)
      = (⟨newSecret, []⟩, performed ++ callbacks) := by
  intro callbacks
  induction callbacks with
  | nil => intro performed; simp
  | cons valueRef rest ih =>
    intro performed
    have hstep : saveEncryptedValue ⟨newSecret, []⟩ performed valueRef
        = (⟨newSecret, []⟩, performed ++ [valueRef]) := by
      simp [saveEncryptedValue, hnew]
    simp only [List.foldl_cons, hstep, ih]
    simp

/-- C7: an encrypted-value save requested while the master secret is
absent is appended to the callback queue rather than executed, and once
the secret becomes present the queued saves are executed exactly once
each in FIFO order, with the queue emptied. -/
theorem secretCallbacks_fifo (st : SecretQueueState) (newSecret : Bytes)
    (performed : List Nat) (valueRef : Nat)
    (hempty : st.secret = []) (hnew : newSecret ≠ []) :
    saveEncryptedValue st performed valueRef
      = ({ st with secretCallbacks := st.secretCallbacks ++ [valueRef] },
          performed)
    ∧ generateSecretDone st newSecret
      = (⟨newSecret, []⟩, st.secretCallbacks) := by
  constructor
  · simp [saveEncryptedValue, hempty]
  · rw [generateSecretDone]
    simp only [replay_foldl newSecret hnew st.secretCallbacks []]
    simp

/-- Witness for C7: two saves queued while the secret is absent replay
in order once it is generated. -/
theorem secretCallbacks_fifo_witness :
    (({ secret := [], secretCallbacks := [4, 6] } : SecretQueueState).secret = []
      ∧ ([9] : Bytes) ≠ [])
    ∧ saveEncryptedValue { secret := [], secretCallbacks := [4, 6] } [] 5
      = ({ secret := [], secretCallbacks := [4, 6, 5] }, [])
    ∧ generateSecretDone { secret := [], secretCallbacks := [4, 6] } [9]
      = (⟨[9], []⟩, [4, 6]) :=
  ⟨⟨rfl, by decide⟩,
    (secretCallbacks_fifo { secret := [], secretCallbacks := [4, 6] } [9] [] 5
      rfl (by decide)).1,
    (secretCallbacks_fifo { secret := [], secretCallbacks := [4, 6] } [9] [] 5
      rfl (by decide)).2⟩

/-- C10: with no password check outstanding, submitting an empty
password fires an empty message on the password-error stream but does
not stop: the password-check request is still issued, its hash computed
over the empty password (`Sha256(salt ++ salt)`). -/
theorem submitPassword_empty_still_requests (c : Crypto)
    (newRequestId : Int) (st : PasswordState)
    (hreq : st.passwordCheckRequestId = 0) :
    submitPassword c newRequestId st "" =
      { state := { st with passwordCheckRequestId := newRequestId }
        passwordErrorFired := some ""
        requestHash := some (c.Sha256 (st.salt ++ st.salt)) } := by
  simp [submitPassword, hreq, passwordHashForAuth, utf8Bytes]

/-- Witness for C10 with a one-byte salt and the all-failing crypto. -/
theorem submitPassword_empty_still_requests_witness :
    (({ salt := [1] } : PasswordState).passwordCheckRequestId = 0)
    ∧ submitPassword c3crypto 3 { salt := [1] } "" =
      { state := { salt := [1], passwordCheckRequestId := 3 }
        passwordErrorFired := some ""
        requestHash := some (c3crypto.Sha256 ([1] ++ [1])) } :=
  ⟨rfl, submitPassword_empty_still_requests c3crypto 3 { salt := [1] } rfl⟩

/-- Concrete input for the C8 counterexample: a personal-details value
with committed content whose save request is still in flight. -/
def c8value : Value :=
  { type := .PersonalDetails
    submitHash := [7]
    data := { hash := [1], secret := [2], parsed := ⟨[("first_name", "A")]⟩ }
    saveRequestId := 5 }

/-- The form scope of the C8 counterexample. -/
def c8scope : Scope := { fields := c8value, documents := [] }

/-- C8 counterexample: a save for `c8value` is in flight
(`savingValue` holds), yet `submit` — whose only guards are an already
outstanding submission and an empty prepared hash list — issues the
`AcceptAuthorization` request instead of rejecting the submission as a
no-op. -/
theorem submit_not_blocked_by_inflight_save :
    savingValue c8value = true
    ∧ submit (fun _ => "h") false ComputeScopeRowReadyString "p" 0 [c8scope]
      = (true, true) := by
  constructor
  · rfl
  · rfl

/-- C8 (amended): while a save for a value is in flight (non-zero save
request id or verification in progress), any further save request for
that value is rejected as a no-op (the global submission, however, is
not blocked by it); a failed save surfaces the error to the user and
fires the save-finished event, reopening the value for editing. -/
theorem savingValue_blocks_further_saves (submitRequestId : Int)
    (value : Value) (data : ValueMap) (errorType : String)
    (hsaving : savingValue value = true) :
    saveValueEdit submitRequestId value data = (value, .blocked)
    ∧ (valueSaveFailed value errorType).errorShown
        = "Error saving value:\n" ++ errorType
    ∧ (valueSaveFailed value errorType).saveFinishedFired = true := by
  refine ⟨?_, rfl, rfl⟩
  simp [saveValueEdit, hsaving]

/-- Witness for the amended C8 at `c8value`. -/
theorem savingValue_blocks_further_saves_witness :
    savingValue c8value = true
    ∧ saveValueEdit 0 c8value ⟨[]⟩ = (c8value, .blocked)
    ∧ (valueSaveFailed c8value "ERR").errorShown = "Error saving value:\nERR"
    ∧ (valueSaveFailed c8value "ERR").saveFinishedFired = true :=
  ⟨by decide,
    (savingValue_blocks_further_saves 0 c8value ⟨[]⟩ "ERR" (by decide)).1,
    (savingValue_blocks_further_saves 0 c8value ⟨[]⟩ "ERR" (by decide)).2.1,
    (savingValue_blocks_further_saves 0 c8value ⟨[]⟩ "ERR" (by decide)).2.2⟩

/-- The scan-and-selfie half of secret validation never touches a
value's `data`. -/
theorem validateValueSecretsFiles_data (c : Crypto) (masterSecret : Bytes)
    (v1 v2 : Value)
    (h : validateValueSecretsFiles c masterSecret v1 = some v2) :
    v2.data = v1.data := by
  unfold validateValueSecretsFiles at h
  obtain ⟨scans', hsc, h2⟩ := Option.bind_eq_some.mp h
  cases hsel : v1.selfie with
  | none =>
    rw [hsel] at h2
    cases h2
    rfl
  | some selfie =>
    rw [hsel] at h2
    obtain ⟨selfie', hsf, h3⟩ := Option.map_eq_some'.mp h2
    subst h3
    rfl

/-- When secret validation succeeds on a value with stored encrypted
data, the returned value keeps the original bytes and hash and carries
the (non-empty) decrypted per-value data secret. -/
theorem validateValueSecrets_data (c : Crypto) (masterSecret : Bytes)
    (value v1 : Value) (horig : ¬ value.data.original = [])
    (h : validateValueSecrets c masterSecret value = some v1) :
    v1.data.original = value.data.original
    ∧ v1.data.hash = value.data.hash
    ∧ v1.data.secret = c.DecryptValueSecret value.data.encryptedSecret
        masterSecret value.data.hash
    ∧ ¬ v1.data.secret = [] := by
  rw [validateValueSecrets, if_neg horig] at h
  by_cases hs : c.DecryptValueSecret value.data.encryptedSecret masterSecret
      value.data.hash = []
  · rw [if_pos hs] at h
    exact absurd h (by simp)
  · rw [if_neg hs, Option.some_bind] at h
    have hdata := validateValueSecretsFiles_data c masterSecret _ _ h
    rw [hdata]
    exact ⟨rfl, rfl, rfl, hs⟩

/-- Concrete crypto for the C1 counterexample: the wrapped per-value
secret unwraps fine, the payload fails to decrypt, and deserializing the
empty result yields the empty field map. -/
def c1crypto : Crypto :=
  { DecryptSecureSecret := fun _ _ _ => []
    DecryptValueSecret := fun _ _ _ => [1]
    DecryptData := fun _ _ _ => []
    DeserializeData := fun _ => []
    CountSecureSecretHash := fun _ => 0
    Sha256 := fun _ => []
    toBase64 := fun _ => "" }

/-- Concrete value for the C1 counterexample: stored encrypted data
present, no scans, no selfie. -/
def c1value : Value := { type := .Passport, data := { original := [1] } }

/-- C1 counterexample: `c1value.data.original` is non-empty and the
master secret `[9]` is present, yet decryption (with the payload
decryption failing after the per-value secret unwrapped) leaves an
empty field map without resetting the value — neither disjunct of the
claim holds. -/
theorem decryptValue_claim_counterexample :
    c1value.data.original ≠ []
    ∧ ¬ ((decryptValue c1crypto [9] c1value).data.parsed.fields ≠ []
        ∨ decryptValue c1crypto [9] c1value = resetValue c1value) := by
  decide

/-- C1 (amended): for a value with non-empty stored encrypted data,
decryption either resets the value to the unset state (when unwrapping
the per-value or a per-file secret fails) or replaces the field map
wholesale by the deserialization of the decrypted payload — empty when
payload decryption fails — with the per-value secret successfully
unwrapped; the operation never fails fatally and never leaves a
partially populated field map. -/
theorem decryptValue_wholesale (c : Crypto) (masterSecret : Bytes)
    (value : Value) (horig : value.data.original ≠ []) :
    decryptValue c masterSecret value = resetValue value
    ∨ ((decryptValue c masterSecret value).data.parsed.fields
        = c.DeserializeData (c.DecryptData value.data.original value.data.hash
            (c.DecryptValueSecret value.data.encryptedSecret masterSecret
              value.data.hash))
      ∧ c.DecryptValueSecret value.data.encryptedSecret masterSecret
          value.data.hash ≠ []) := by
  cases hv : validateValueSecrets c masterSecret value with
  | none =>
    left
    rw [decryptValue, hv]
  | some v1 =>
    right
    obtain ⟨ho, hh, hsec, hne⟩ :=
      validateValueSecrets_data c masterSecret value v1 horig hv
    refine ⟨?_, by rw [← hsec]; exact hne⟩
    simp only [decryptValue, hv]
    rw [if_neg (by rw [ho]; exact horig)]
    show c.DeserializeData (c.DecryptData v1.data.original v1.data.hash
      v1.data.secret) = _
    rw [ho, hh, hsec]

/-- Witness for the amended C1 at the counterexample inputs (where the
second disjunct holds with an empty deserialization). -/
theorem decryptValue_wholesale_witness :
    c1value.data.original ≠ []
    ∧ (decryptValue c1crypto [9] c1value = resetValue c1value
      ∨ ((decryptValue c1crypto [9] c1value).data.parsed.fields
          = c1crypto.DeserializeData (c1crypto.DecryptData
              c1value.data.original c1value.data.hash
              (c1crypto.DecryptValueSecret c1value.data.encryptedSecret [9]
                c1value.data.hash))
        ∧ c1crypto.DecryptValueSecret c1value.data.encryptedSecret [9]
            c1value.data.hash ≠ [])) :=
  ⟨by decide, decryptValue_wholesale c1crypto [9] c1value (by decide)⟩

/-- String leaves distribute over member-list append. -/
theorem jsonStringsOfMembers_append (l1 l2 : List (String × JSON)) :
    jsonStringsOfMembers (l1 ++ l2)
      = jsonStringsOfMembers l1 ++ jsonStringsOfMembers l2 := by
  induction l1 with
  | nil => rfl
  | cons p l ih =>
    cases p
    simp [jsonStringsOfMembers, ih]

/-- A string below a member list is below one of its members. -/
theorem mem_jsonStringsOfMembers (s : String) :
    ∀ entries : List (String × JSON), s ∈ jsonStringsOfMembers entries →
      ∃ entry ∈ entries, s ∈ jsonStrings entry.2 := by
  intro entries
  induction entries with
  | nil => intro h; exact absurd h (by simp [jsonStringsOfMembers])
  | cons p l ih =>
    intro h
    cases p with
    | mk k j =>
      rw [jsonStringsOfMembers, List.mem_append] at h
      rcases h with h | h
      · exact ⟨(k, j), by simp, h⟩
      · obtain ⟨entry, he, hs⟩ := ih h
        exact ⟨entry, by simp [he], hs⟩

/-- The string leaves of `GetJSONFromMap` are the rendered byte
strings. -/
theorem jsonStrings_GetJSONFromMap (b64 : Bytes → String)
    (m : List (String × Bytes)) :
    jsonStrings (GetJSONFromMap b64 m) = m.map (fun p => b64 p.2) := by
  rw [GetJSONFromMap, jsonStrings]
  induction m with
  | nil => rfl
  | cons p l ih =>
    cases p
    simp [jsonStringsOfMembers, jsonStrings] at ih ⊢
    exact ih

/-- The string leaves of `GetJSONFromFile` are the file's hash and
secret. -/
theorem jsonStrings_GetJSONFromFile (b64 : Bytes → String) (file : File) :
    jsonStrings (GetJSONFromFile b64 file) = [b64 file.hash, b64 file.secret] :=
  rfl

/-- The string leaves of the `files` array are every scan's hash and
secret. -/
theorem jsonStrings_files (b64 : Bytes → String) (scans : List File) :
    jsonStringsOfList (scans.map (GetJSONFromFile b64))
      = scans.flatMap (fun f => [b64 f.hash, b64 f.secret]) := by
  induction scans with
  | nil => rfl
  | cons f l ih =>
    simp only [List.map_cons, jsonStringsOfList, jsonStrings_GetJSONFromFile,
      List.flatMap_cons, ih]

/-- Every string leaf of a value's credentials object is one of the
value's hash/secret strings. -/
theorem addValueToJSON_strings (b64 : Bytes → String)
    (identitySelfieRequired : Bool) (value : Value) :
    ∀ s ∈ jsonStrings (addValueToJSON b64 identitySelfieRequired value),
      s ∈ credentialStrings b64 identitySelfieRequired value := by
  intro s hs
  rw [addValueToJSON, jsonStrings, jsonStringsOfMembers_append,
    jsonStringsOfMembers_append] at hs
  simp only [List.mem_append] at hs
  rcases hs with (hs | hs) | hs
  · split at hs
    · simp only [jsonStringsOfMembers, jsonStrings_GetJSONFromMap,
        List.append_nil] at hs
      simp only [List.map_cons, List.map_nil, List.mem_cons,
        List.not_mem_nil, or_false] at hs
      rcases hs with rfl | rfl
      · simp [credentialStrings]
      · simp [credentialStrings]
    · exact absurd hs (by simp [jsonStringsOfMembers])
  · split at hs
    · simp only [jsonStringsOfMembers, jsonStrings, List.append_nil,
        jsonStrings_files] at hs
      simp only [List.mem_flatMap] at hs
      obtain ⟨f, hf, hsf⟩ := hs
      simp only [credentialStrings, List.mem_append, List.mem_flatMap]
      exact Or.inl (Or.inr ⟨f, hf, hsf⟩)
    · exact absurd hs (by simp [jsonStringsOfMembers])
  · rcases hsel : value.selfie with _ | selfie
    · simp [hsel, jsonStringsOfMembers] at hs
    · by_cases hreq : identitySelfieRequired = true
      · simp only [hsel, hreq, if_true, jsonStringsOfMembers,
          jsonStrings_GetJSONFromFile, List.append_nil, List.mem_cons,
          List.not_mem_nil, or_false] at hs
        simp only [credentialStrings, hsel, hreq, if_true, List.mem_append,
          List.mem_cons, List.not_mem_nil, or_false]
        tauto
      · simp [hsel, hreq, jsonStringsOfMembers] at hs

/-- The credentials key is non-empty exactly for the encrypted
(non-phone, non-email) value types. -/
theorem credentialsKey_ne_empty_iff (t : ValueType) :
    ValueCredentialsKey t ≠ "" ↔ isEncryptedValue t = true := by
  cases t <;> decide

/-- Every credentials entry emitted by `addValue` carries the fixed key
of an encrypted value type and only the value's hash/secret strings. -/
theorem addValue_entry (b64 : Bytes → String)
    (identitySelfieRequired : Bool) (value : Value) :
    ∀ entry ∈ (addValue b64 identitySelfieRequired value).2,
      entry.1 = ValueCredentialsKey value.type
      ∧ isEncryptedValue value.type = true
      ∧ ∀ s ∈ jsonStrings entry.2,
          s ∈ credentialStrings b64 identitySelfieRequired value := by
  intro entry he
  simp only [addValue] at he
  split at he
  · rename_i hk
    simp only [List.mem_singleton] at he
    subst he
    exact ⟨rfl, (credentialsKey_ne_empty_iff value.type).mp hk,
      addValueToJSON_strings b64 identitySelfieRequired value⟩
  · exact absurd he (by simp)

/-- The scope loop emits exactly the accepted values' submit hashes, and
every credentials entry belongs to an accepted encrypted-type value and
exposes only that value's hash/secret strings. -/
theorem processScopes_spec (b64 : Bytes → String)
    (identitySelfieRequired : Bool) (ready : Scope → String)
    (scopes : List Scope) :
    (processScopes b64 identitySelfieRequired ready scopes).hashes
      = (collectAccepted ready scopes).map (fun v => (v.type, v.submitHash))
    ∧ ∀ entry ∈ (processScopes b64 identitySelfieRequired ready
        scopes).secureData,
        ∃ v, v ∈ collectAccepted ready scopes
          ∧ entry.1 = ValueCredentialsKey v.type
          ∧ isEncryptedValue v.type = true
          ∧ ∀ s ∈ jsonStrings entry.2,
              s ∈ credentialStrings b64 identitySelfieRequired v := by
  induction scopes with
  | nil =>
    exact ⟨rfl, fun entry he => absurd he (by simp [processScopes])⟩
  | cons scope rest ih =>
    by_cases hr : ready scope = ""
    · constructor
      · simp [processScopes, collectAccepted, hr, ih.1]
      · intro entry he
        simp only [processScopes, hr, if_true, if_pos] at he
        obtain ⟨v, hv, h1, h2, h3⟩ := ih.2 entry he
        exact ⟨v, by simp [collectAccepted, hr, hv], h1, h2, h3⟩
    · cases hfind : scope.documents.find? (fun doc => !doc.scans.isEmpty) with
      | none =>
        constructor
        · simp [processScopes, collectAccepted, hr, hfind, ih.1, addValue]
        · intro entry he
          simp only [processScopes, hr, if_neg, if_false, hfind,
            List.map_nil, List.flatMap_nil, List.nil_append,
            List.mem_cons, List.mem_append] at he
          rcases he with he | he
          · obtain ⟨h1, h2, h3⟩ := addValue_entry b64 identitySelfieRequired
              scope.fields entry he
            exact ⟨scope.fields, by simp [collectAccepted, hr, hfind],
              h1, h2, h3⟩
          · obtain ⟨v, hv, h1, h2, h3⟩ := ih.2 entry he
            exact ⟨v, by simp [collectAccepted, hr, hfind, hv], h1, h2, h3⟩
      | some doc =>
        constructor
        · simp [processScopes, collectAccepted, hr, hfind, ih.1, addValue]
        · intro entry he
          simp only [processScopes, hr, if_neg, if_false, hfind,
            List.map_cons, List.map_nil, List.flatMap_cons,
            List.flatMap_nil, List.append_nil, List.mem_append] at he
          rcases he with he | he | he
          · obtain ⟨h1, h2, h3⟩ := addValue_entry b64 identitySelfieRequired
              scope.fields entry he
            exact ⟨scope.fields, by simp [collectAccepted, hr, hfind],
              h1, h2, h3⟩
          · obtain ⟨h1, h2, h3⟩ := addValue_entry b64 identitySelfieRequired
              doc entry he
            exact ⟨doc, by simp [collectAccepted, hr, hfind], h1, h2, h3⟩
          · obtain ⟨v, hv, h1, h2, h3⟩ := ih.2 entry he
            exact ⟨v, by simp [collectAccepted, hr, hfind, hv], h1, h2, h3⟩

/-- Every accepted value is a value of the form. -/
theorem collectAccepted_subset (ready : Scope → String)
    (scopes : List Scope) :
    ∀ v ∈ collectAccepted ready scopes, v ∈ allScopeValues scopes := by
  induction scopes with
  | nil => simp [collectAccepted]
  | cons scope rest ih =>
    intro v hv
    simp only [allScopeValues, List.flatMap_cons, scopeValues,
      List.mem_append, List.mem_cons]
    by_cases hr : ready scope = ""
    · rw [collectAccepted, if_pos hr] at hv
      exact Or.inr (ih v hv)
    · rw [collectAccepted, if_neg hr] at hv
      rcases List.mem_cons.mp hv with rfl | hv
      · exact Or.inl (Or.inl rfl)
      · rcases List.mem_append.mp hv with hv | hv
        · cases hfind : scope.documents.find? (fun doc => !doc.scans.isEmpty) with
          | none => rw [hfind] at hv; exact absurd hv (by simp)
          | some doc =>
            rw [hfind] at hv
            rcases List.mem_singleton.mp hv with rfl
            exact Or.inl (Or.inr (List.mem_of_find?_eq_some hfind))
        · exact Or.inr (ih v hv)

/-- C2: whenever `prepareFinalData` produces a credentials document, the
document is exactly `{"secure_data": ..., "payload": ...}`; the hash
list holds precisely each accepted value's `(type, submitHash)` — so
phone and email values contribute only their submit hash; every
`secure_data` entry is keyed by the fixed credentials key of an accepted
encrypted-type value (phone/email, whose key is empty, contribute no
object); and every string in the document is the payload or a rendered
content hash / per-item secret of a form value — no decrypted field
text can appear. -/
theorem prepareFinalData_credentials_sound (b64 : Bytes → String)
    (identitySelfieRequired : Bool) (ready : Scope → String)
    (payload : String) (scopes : List Scope) (cred : JSON)
    (hcred : (prepareFinalData b64 identitySelfieRequired ready payload
        scopes).credentials = some cred) :
    cred = .obj [("secure_data",
        .obj (processScopes b64 identitySelfieRequired ready
          scopes).secureData),
      ("payload", .str payload)]
    ∧ (prepareFinalData b64 identitySelfieRequired ready payload
        scopes).hashes
      = (collectAccepted ready scopes).map (fun v => (v.type, v.submitHash))
    ∧ (∀ entry ∈ (processScopes b64 identitySelfieRequired ready
          scopes).secureData,
        ∃ v, v ∈ collectAccepted ready scopes
          ∧ entry.1 = ValueCredentialsKey v.type
          ∧ isEncryptedValue v.type = true
          ∧ ∀ s ∈ jsonStrings entry.2,
              s ∈ credentialStrings b64 identitySelfieRequired v)
    ∧ (∀ s ∈ jsonStrings cred, s = payload
        ∨ ∃ v, v ∈ allScopeValues scopes
            ∧ s ∈ credentialStrings b64 identitySelfieRequired v) := by
  have hspec := processScopes_spec b64 identitySelfieRequired ready scopes
  rw [prepareFinalData] at hcred
  split at hcred
  · exact absurd hcred (by simp)
  · rename_i herr
    have hcred' := Option.some.inj hcred
    subst hcred'
    refine ⟨rfl, ?_, hspec.2, ?_⟩
    · rw [prepareFinalData, if_neg herr]
      exact hspec.1
    · intro s hs
      simp only [jsonStrings, jsonStringsOfMembers, List.append_nil,
        List.mem_append, List.mem_singleton] at hs
      rcases hs with hs | hs
      · obtain ⟨entry, he, hs'⟩ := mem_jsonStringsOfMembers s _ hs
        obtain ⟨v, hv, _, _, h3⟩ := hspec.2 entry he
        exact Or.inr ⟨v, collectAccepted_subset ready scopes v hv, h3 s hs'⟩
      · exact Or.inl hs

/-- Concrete value for the C2 witness: a passport value with committed
field data and one scan. -/
def c2value : Value :=
  { type := .Passport
    submitHash := [3]
    data := { hash := [1], secret := [2], parsed := ⟨[("k", "v")]⟩ }
    scans := [{ hash := [4], secret := [5] }] }

/-- The form scope of the C2 witness. -/
def c2scope : Scope := { fields := c2value, documents := [] }

/-- The credentials document `prepareFinalData` produces for the C2
witness (with every byte string rendered as `"h"`). -/
def c2cred : JSON :=
  .obj [("secure_data", .obj [("passport", .obj
      [("data", .obj [("data_hash", .str "h"), ("secret", .str "h")]),
        ("files", .arr [.obj [("file_hash", .str "h"),
          ("secret", .str "h")]])])]),
    ("payload", .str "pp")]

/-- Witness for C2 at the single-scope form of `c2scope`. -/
theorem prepareFinalData_credentials_sound_witness :
    ((prepareFinalData (fun _ => "h") false (fun _ => "x") "pp"
        [c2scope]).credentials = some c2cred)
    ∧ (c2cred = .obj [("secure_data",
          .obj (processScopes (fun _ => "h") false (fun _ => "x")
            [c2scope]).secureData),
        ("payload", .str "pp")]
      ∧ (prepareFinalData (fun _ => "h") false (fun _ => "x") "pp"
          [c2scope]).hashes
        = (collectAccepted (fun _ => "x") [c2scope]).map
            (fun v => (v.type, v.submitHash))
      ∧ (∀ entry ∈ (processScopes (fun _ => "h") false (fun _ => "x")
            [c2scope]).secureData,
          ∃ v, v ∈ collectAccepted (fun _ => "x") [c2scope]
            ∧ entry.1 = ValueCredentialsKey v.type
            ∧ isEncryptedValue v.type = true
            ∧ ∀ s ∈ jsonStrings entry.2,
                s ∈ credentialStrings (fun _ => "h") false v)
      ∧ (∀ s ∈ jsonStrings c2cred, s = "pp"
          ∨ ∃ v, v ∈ allScopeValues [c2scope]
              ∧ s ∈ credentialStrings (fun _ => "h") false v)) :=
  ⟨rfl, prepareFinalData_credentials_sound (fun _ => "h") false
    (fun _ => "x") "pp" [c2scope] c2cred rfl⟩

end Passport
